import Mathlib

/-!
# GeekOS project0: kernel entry point and key-echo thread

A shallow embedding of `src/project0/src/geekos/main.c`.

The two functions of the file, `project0` and `Main`, only call into other
kernel subsystems (screen, keyboard, scheduler, ...).  Each such call is
recorded as a `Call` in the trace of the calling thread; the thread state is
passed explicitly.  The keyboard is the only source of input: the results of
the successive `Read_Key` calls are given as a list.
-/

namespace GeekOS

/-! ## Data model -/

/-- The functions of `main.c` whose address is taken (thread entry points). -/
inductive Func where
  | project0
  | Main
  deriving DecidableEq, Repr

/-- A call made by `main.c` into another kernel subsystem, with its actual
arguments.  `Read_Key` carries what the keyboard driver answered: `none` when
it returned false, `some k` when it returned true and stored `k` in `*keycode`. -/
inductive Call where
  | Init_BSS
  | Init_Screen
  | Init_Mem (bootInfo : Nat)
  | Init_CRC32
  | Init_TSS
  | Init_Interrupts
  | Init_Scheduler
  | Init_Traps
  | Init_Timer
  | Init_Keyboard
  | Set_Current_Attr (attrib : Nat)
  | Print (fmt : String) (args : List Nat)
  | Start_Kernel_Thread (startFunc : Func) (arg : Nat) (priority : Nat) (detached : Bool)
  | Read_Key (result : Option Nat)
  | Exit (exitCode : Int)
  deriving DecidableEq, Repr

/-- The constants of `geekos/keyboard.h`, `geekos/screen.h` and
`geekos/kthread.h` used by `main.c`.  The headers are not part of the given
sources, so the constants are parameters of the embedding. -/
structure Consts where
  KEY_SPECIAL_FLAG : Nat
  KEY_RELEASE_FLAG : Nat
  KEY_CTRL_FLAG : Nat
  KEY_SHIFT_FLAG : Nat
  BLACK : Nat
  GREEN : Nat
  GRAY : Nat
  BRIGHT : Nat
  ATTRIB : Nat → Nat → Nat
  PRIORITY_NORMAL : Nat

/-- Modelled from the spec: the header `geekos/keyboard.h` (flag constants of
a Keycode), `geekos/screen.h` (colours) and `geekos/kthread.h` (priorities)
are missing.  The spec describes a Keycode as a base character in the low
8 bits plus separate special, release and modifier flags; this instance gives
each flag one bit above the low byte.  It is used only to evaluate the
parametric definitions at concrete key events. -/
def stdConsts : Consts where
  KEY_SPECIAL_FLAG := 0x0100
  KEY_RELEASE_FLAG := 0x8000
  KEY_CTRL_FLAG := 0x4000
  KEY_SHIFT_FLAG := 0x1000
  BLACK := 0
  GREEN := 2
  GRAY := 7
  BRIGHT := 8
  ATTRIB := fun bg fg => (bg <<< 4) ||| fg
  PRIORITY_NORMAL := 5

/-- State of one kernel thread as seen from outside: the calls it has made so
far (oldest first) and, once it has called `Exit`, its exit code. -/
structure Thread where
  trace : List Call
  exited : Option Int
  deriving DecidableEq, Repr

/-- A thread that has just been entered. -/
def Thread.start : Thread := ⟨[], none⟩

/-- Modelled from the spec: the scheduler function `Exit` (`geekos/kthread.c`)
is missing.  The spec says it terminates the calling execution context with
the given status; it does not return.  Every other call returns to its
caller.  The result is the exit status when the call ends the thread. -/
def Call.exitStatus : Call → Option Int
  | Call.Exit exitCode => some exitCode
  | _ => none

/-- Perform one call: it is appended to the trace, and it ends the thread when
it is an `Exit`.  A thread that has exited performs no further call. -/
def Thread.call (t : Thread) (c : Call) : Thread :=
  match t.exited with
  | some _ => t
  | none => ⟨t.trace ++ [c], c.exitStatus⟩

/-! ## The echo thread -/

/-- The body of the `while (1)` loop of `project0`, given the answer `r` of
the `Read_Key` call that opens it. -/
def project0_iteration (K : Consts) (t : Thread) (r : Option Nat) : Thread :=
  let t := t.call (Call.Read_Key r)
  match r with
  | none => t
  | some keycode =>
    if !((keycode &&& K.KEY_SPECIAL_FLAG) != 0 || (keycode &&& K.KEY_RELEASE_FLAG) != 0) then
      let asciiCode := keycode &&& 0xff
      if (keycode &&& K.KEY_CTRL_FLAG) == K.KEY_CTRL_FLAG && asciiCode == 'd'.toNat then
        (t.call (Call.Print "\n---------BYE!---------\n" [])).call (Call.Exit 1)
      else
        t.call (Call.Print "%c" [if asciiCode == '\r'.toNat then '\n'.toNat else asciiCode])
    else
      t

/-- The `while (1)` loop of `project0`, run for as long as the keyboard answers
are known: one iteration per element of `reads`, until the thread exits. -/
def project0_loop (K : Consts) : Thread → List (Option Nat) → Thread
  | t, [] => t
  | t, r :: rest =>
    match t.exited with
    | some _ => t
    | none => project0_loop K (project0_iteration K t r) rest

/-- The thread body `project0`: the prompt, then the loop. -/
def project0 (K : Consts) (reads : List (Option Nat)) : Thread :=
  project0_loop K (Thread.start.call (Call.Print "To Exit hit Ctrl + d.\n" [])) reads

/-! ## The kernel entry point -/

/-- The kernel entry point `Main`, called with the address of the boot
descriptor. -/
def Main (K : Consts) (bootInfo : Nat) : Thread :=
  let t := Thread.start
  let t := t.call Call.Init_BSS
  let t := t.call Call.Init_Screen
  let t := t.call (Call.Init_Mem bootInfo)
  let t := t.call Call.Init_CRC32
  let t := t.call Call.Init_TSS
  let t := t.call Call.Init_Interrupts
  let t := t.call Call.Init_Scheduler
  let t := t.call Call.Init_Traps
  let t := t.call Call.Init_Timer
  let t := t.call Call.Init_Keyboard
  let t := t.call (Call.Set_Current_Attr (K.ATTRIB K.BLACK (K.GREEN ||| K.BRIGHT)))
  let t := t.call (Call.Print "Welcome to GeekOS!\n" [])
  let t := t.call (Call.Set_Current_Attr (K.ATTRIB K.BLACK K.GRAY))
  let t := t.call (Call.Start_Kernel_Thread Func.project0 0 K.PRIORITY_NORMAL false)
  let t := t.call (Call.Exit 0)
  t

/-! ## Observations on a trace -/

/-- Modelled from the spec: the console function `Print` (`geekos/screen.c`) is
missing.  The spec says it accepts a format string and a variable argument
list; the only conversion `main.c` uses is `%c`, which writes its argument as
one character.  Every other character of the format is written as it is. -/
def Print_render : List Char → List Nat → List Nat
  | [], _ => []
  | '%' :: 'c' :: rest, a :: args => (a % 256) :: Print_render rest args
  | c :: rest, args => c.toNat :: Print_render rest args

/-- The characters one call writes to the console. -/
def Call.output : Call → List Nat
  | Call.Print fmt args => Print_render fmt.toList args
  | _ => []

/-- The characters a trace writes to the console, in order. -/
def output (tr : List Call) : List Nat :=
  tr.flatMap Call.output

/-- The `Print` calls of a trace. -/
def prints (tr : List Call) : List Call :=
  tr.filter (fun c => match c with | Call.Print _ _ => true | _ => false)

/-- The `Exit` calls of a trace. -/
def exits (tr : List Call) : List Call :=
  tr.filter (fun c => match c with | Call.Exit _ => true | _ => false)

/-- The `Read_Key` calls of a trace. -/
def keyReads (tr : List Call) : List Call :=
  tr.filter (fun c => match c with | Call.Read_Key _ => true | _ => false)

/-! ## Vocabulary for key events -/

/-- A key event is significant when neither its special flag nor its release
flag is set: the test that guards the inner block of the loop. -/
def significant (K : Consts) (keycode : Nat) : Bool :=
  (keycode &&& K.KEY_SPECIAL_FLAG) == 0 && (keycode &&& K.KEY_RELEASE_FLAG) == 0

/-- The exit chord: a significant event with the control flag set and low
byte equal to the letter d. -/
def exitChord (K : Consts) (keycode : Nat) : Bool :=
  significant K keycode && (keycode &&& K.KEY_CTRL_FLAG) == K.KEY_CTRL_FLAG
    && keycode % 256 == 0x64

/-- The character echoed for a key event: its low byte, a carriage return
being replaced by a line feed. -/
def echoChar (keycode : Nat) : Nat :=
  if keycode % 256 = 0x0D then 0x0A else keycode % 256

/-- The farewell text, as character codes. -/
def farewell : List Nat :=
  "\n---------BYE!---------\n".toList.map Char.toNat

/-- The prompt text, as character codes. -/
def prompt : List Nat :=
  "To Exit hit Ctrl + d.\n".toList.map Char.toNat

/-- A call to one of the subsystem initializers. -/
def Call.isInit : Call → Bool
  | Call.Init_BSS => true
  | Call.Init_Screen => true
  | Call.Init_Mem _ => true
  | Call.Init_CRC32 => true
  | Call.Init_TSS => true
  | Call.Init_Interrupts => true
  | Call.Init_Scheduler => true
  | Call.Init_Traps => true
  | Call.Init_Timer => true
  | Call.Init_Keyboard => true
  | _ => false

/-- A call to the thread creation function. -/
def Call.isStart : Call → Bool
  | Call.Start_Kernel_Thread _ _ _ _ => true
  | _ => false

/-- The ten initializers in the order of the boot sequence. -/
def bootInits (bootInfo : Nat) : List Call :=
  [Call.Init_BSS, Call.Init_Screen, Call.Init_Mem bootInfo, Call.Init_CRC32,
   Call.Init_TSS, Call.Init_Interrupts, Call.Init_Scheduler, Call.Init_Traps,
   Call.Init_Timer, Call.Init_Keyboard]

/-! ## Basic facts -/

theorem and_0xff (k : Nat) : k &&& 0xff = k % 256 :=
  Nat.and_pow_two_sub_one_eq_mod k 8

theorem output_append (a b : List Call) : output (a ++ b) = output a ++ output b := by
  simp [output]

theorem output_bye : Call.output (Call.Print "\n---------BYE!---------\n" []) = farewell := by
  rfl

theorem output_prompt : Call.output (Call.Print "To Exit hit Ctrl + d.\n" []) = prompt := by
  rfl

theorem output_echo (c : Nat) : Call.output (Call.Print "%c" [c]) = [c % 256] := by
  rfl

theorem output_read (r : Option Nat) : Call.output (Call.Read_Key r) = [] := rfl

theorem output_exit (n : Int) : Call.output (Call.Exit n) = [] := rfl

/-- What one iteration does to a running thread, case by case. -/
theorem iteration_live (K : Consts) (t : Thread) (k : Nat) (ht : t.exited = none) :
    project0_iteration K t (some k) =
      if significant K k then
        if exitChord K k then
          ⟨t.trace ++ [Call.Read_Key (some k),
              Call.Print "\n---------BYE!---------\n" [], Call.Exit 1], some 1⟩
        else
          ⟨t.trace ++ [Call.Read_Key (some k), Call.Print "%c" [echoChar k]], none⟩
      else
        ⟨t.trace ++ [Call.Read_Key (some k)], none⟩ := by
  simp only [project0_iteration, Thread.call, Call.exitStatus, ht, and_0xff, significant,
    exitChord, echoChar]
  by_cases h1 : (k &&& K.KEY_SPECIAL_FLAG) = 0 <;>
  by_cases h2 : (k &&& K.KEY_RELEASE_FLAG) = 0 <;>
  by_cases h3 : (k &&& K.KEY_CTRL_FLAG) = K.KEY_CTRL_FLAG <;>
  by_cases h4 : k % 256 = 100 <;>
  simp [h1, h2, h3, h4]

theorem iteration_none (K : Consts) (t : Thread) (ht : t.exited = none) :
    project0_iteration K t none = ⟨t.trace ++ [Call.Read_Key none], none⟩ := by
  simp [project0_iteration, Thread.call, Call.exitStatus, ht]

theorem echoChar_lt (k : Nat) : echoChar k < 256 := by
  unfold echoChar
  split
  · decide
  · exact Nat.mod_lt _ (by decide)

theorem echoChar_mod (k : Nat) : echoChar k % 256 = echoChar k :=
  Nat.mod_eq_of_lt (echoChar_lt k)

/-! ## One iteration of the echo loop -/

/-- C1: a key event whose special flag or release flag (or both) is set makes
one iteration of the echo loop do nothing beyond the Read_Key call itself: no
Print call, no Exit call, the console output is unchanged and the thread is
still running, whatever the other bits of the keycode are. -/
theorem C1_flagged_event_ignored (K : Consts) (t : Thread) (k : Nat)
    (ht : t.exited = none)
    (hflag : (k &&& K.KEY_SPECIAL_FLAG) ≠ 0 ∨ (k &&& K.KEY_RELEASE_FLAG) ≠ 0) :
    (project0_iteration K t (some k)).trace = t.trace ++ [Call.Read_Key (some k)] ∧
    prints (project0_iteration K t (some k)).trace = prints t.trace ∧
    exits (project0_iteration K t (some k)).trace = exits t.trace ∧
    output (project0_iteration K t (some k)).trace = output t.trace ∧
    (project0_iteration K t (some k)).exited = none := by
  have hs : significant K k = false := by
    simp only [significant]
    rcases hflag with h | h <;> simp [h]
  rw [iteration_live K t k ht]
  simp [hs, prints, exits, output_append, output, Call.output]

/-- C1, at Ctrl+d released (release flag, control flag, low byte d): nothing
is printed and the thread does not exit. -/
theorem C1_flagged_event_ignored_witness :
    (0xC064 &&& stdConsts.KEY_CTRL_FLAG) = stdConsts.KEY_CTRL_FLAG ∧ 0xC064 % 256 = 0x64 ∧
    output (project0_iteration stdConsts Thread.start (some 0xC064)).trace = [] ∧
    (project0_iteration stdConsts Thread.start (some 0xC064)).exited = none :=
  have h := C1_flagged_event_ignored stdConsts Thread.start 0xC064 rfl (Or.inr (by decide))
  ⟨by decide, by decide, h.2.2.2.1, h.2.2.2.2⟩

/-- C2: a key event with the release and special flags clear, the control
flag set and low byte equal to the letter d makes one iteration of the echo
loop print exactly the farewell text (one Print call, no character echo) and
then call Exit with status 1, which ends the thread. -/
theorem C2_exit_chord (K : Consts) (t : Thread) (k : Nat)
    (ht : t.exited = none)
    (hrel : (k &&& K.KEY_RELEASE_FLAG) = 0)
    (hspec : (k &&& K.KEY_SPECIAL_FLAG) = 0)
    (hctrl : (k &&& K.KEY_CTRL_FLAG) = K.KEY_CTRL_FLAG)
    (hd : k % 256 = 0x64) :
    (project0_iteration K t (some k)).trace =
      t.trace ++ [Call.Read_Key (some k),
        Call.Print "\n---------BYE!---------\n" [], Call.Exit 1] ∧
    output (project0_iteration K t (some k)).trace = output t.trace ++ farewell ∧
    (project0_iteration K t (some k)).exited = some 1 := by
  have hs : significant K k = true := by simp [significant, hrel, hspec]
  have hc : exitChord K k = true := by simp [exitChord, hs, hctrl, hd]
  rw [iteration_live K t k ht]
  simp [hs, hc, output_append, output, output_bye, output_read, output_exit]

/-- C2, at Ctrl+d pressed on a fresh thread. -/
theorem C2_exit_chord_witness :
    output (project0_iteration stdConsts Thread.start (some 0x4064)).trace
      = [10, 45, 45, 45, 45, 45, 45, 45, 45, 45, 66, 89, 69, 33,
         45, 45, 45, 45, 45, 45, 45, 45, 45, 10] ∧
    (project0_iteration stdConsts Thread.start (some 0x4064)).exited = some 1 :=
  have h := C2_exit_chord stdConsts Thread.start 0x4064 rfl (by decide) (by decide)
    (by decide) (by decide)
  ⟨h.2.1, h.2.2⟩

/-- C3: a key event with the release and special flags clear that is not the
exit chord makes one iteration of the echo loop print exactly one character
and not exit: the low byte of the keycode, except that a carriage return
(0x0D) is printed as a line feed (0x0A). -/
theorem C3_echo (K : Consts) (t : Thread) (k : Nat)
    (ht : t.exited = none)
    (hrel : (k &&& K.KEY_RELEASE_FLAG) = 0)
    (hspec : (k &&& K.KEY_SPECIAL_FLAG) = 0)
    (hnot : ¬ ((k &&& K.KEY_CTRL_FLAG) = K.KEY_CTRL_FLAG ∧ k % 256 = 0x64)) :
    (project0_iteration K t (some k)).trace =
      t.trace ++ [Call.Read_Key (some k),
        Call.Print "%c" [if k % 256 = 0x0D then 0x0A else k % 256]] ∧
    output (project0_iteration K t (some k)).trace =
      output t.trace ++ [if k % 256 = 0x0D then 0x0A else k % 256] ∧
    (project0_iteration K t (some k)).exited = none := by
  have hs : significant K k = true := by simp [significant, hrel, hspec]
  have hc : exitChord K k = false := by
    simp only [exitChord, hs, Bool.true_and, Bool.and_eq_false_imp, beq_iff_eq, beq_eq_false_iff_ne]
    intro h1 h2
    exact hnot ⟨h1, h2⟩
  have he := echoChar_mod k
  rw [iteration_live K t k ht]
  simp only [echoChar] at he
  simp [hs, hc, output_append, output, output_echo, output_read, echoChar, he]

/-- C3, at the event carriage return: a single line feed is printed. -/
theorem C3_echo_witness :
    output (project0_iteration stdConsts Thread.start (some 0x0D)).trace = [0x0A] ∧
    (project0_iteration stdConsts Thread.start (some 0x0D)).exited = none :=
  have h := C3_echo stdConsts Thread.start 0x0D rfl (by decide) (by decide) (by decide)
  ⟨h.2.1, h.2.2⟩

/-- C4 as stated fails: Ctrl+Shift+d (release and special clear, control and
shift set, low byte d) is not echoed as a regular character; the iteration
prints the farewell text and the thread exits with status 1. -/
theorem C4_ctrl_shift_d_counterexample :
    ((0x5064 &&& stdConsts.KEY_RELEASE_FLAG) = 0 ∧
     (0x5064 &&& stdConsts.KEY_SPECIAL_FLAG) = 0 ∧
     (0x5064 &&& stdConsts.KEY_CTRL_FLAG) = stdConsts.KEY_CTRL_FLAG ∧
     (0x5064 &&& stdConsts.KEY_SHIFT_FLAG) ≠ 0 ∧
     0x5064 % 256 = 0x64) ∧
    ¬ ((project0_iteration stdConsts Thread.start (some 0x5064)).exited = none ∧
       (project0_iteration stdConsts Thread.start (some 0x5064)).trace =
         [Call.Read_Key (some 0x5064), Call.Print "%c" [0x64]]) ∧
    (project0_iteration stdConsts Thread.start (some 0x5064)).trace =
      [Call.Read_Key (some 0x5064),
       Call.Print "\n---------BYE!---------\n" [], Call.Exit 1] ∧
    (project0_iteration stdConsts Thread.start (some 0x5064)).exited = some 1 := by
  refine ⟨by decide, ?_, ?_, ?_⟩
  · rw [iteration_live stdConsts Thread.start 0x5064 rfl]
    decide
  · rw [iteration_live stdConsts Thread.start 0x5064 rfl]
    decide
  · rw [iteration_live stdConsts Thread.start 0x5064 rfl]
    decide

/-- C4, amended: a key event with the release and special flags clear, the
control flag set, the shift flag also set and low byte d does match the exit
chord, because the control test only looks at the control bit: the iteration
prints the farewell text, echoes no character and calls Exit with status 1. -/
theorem C4_ctrl_shift_d_exits (K : Consts) (t : Thread) (k : Nat)
    (ht : t.exited = none)
    (hrel : (k &&& K.KEY_RELEASE_FLAG) = 0)
    (hspec : (k &&& K.KEY_SPECIAL_FLAG) = 0)
    (hctrl : (k &&& K.KEY_CTRL_FLAG) = K.KEY_CTRL_FLAG)
    (_hshift : (k &&& K.KEY_SHIFT_FLAG) ≠ 0)
    (hd : k % 256 = 0x64) :
    (project0_iteration K t (some k)).trace =
      t.trace ++ [Call.Read_Key (some k),
        Call.Print "\n---------BYE!---------\n" [], Call.Exit 1] ∧
    output (project0_iteration K t (some k)).trace = output t.trace ++ farewell ∧
    (project0_iteration K t (some k)).exited = some 1 := by
  have hs : significant K k = true := by simp [significant, hrel, hspec]
  have hc : exitChord K k = true := by simp [exitChord, hs, hctrl, hd]
  rw [iteration_live K t k ht]
  simp [hs, hc, output_append, output, output_bye, output_read, output_exit]

/-- C4 amended, at Ctrl+Shift+d on a fresh thread. -/
theorem C4_ctrl_shift_d_exits_witness :
    (project0_iteration stdConsts Thread.start (some 0x5064)).trace =
      [Call.Read_Key (some 0x5064),
       Call.Print "\n---------BYE!---------\n" [], Call.Exit 1] ∧
    (project0_iteration stdConsts Thread.start (some 0x5064)).exited = some 1 :=
  have h := C4_ctrl_shift_d_exits stdConsts Thread.start 0x5064 rfl (by decide) (by decide)
    (by decide) (by decide) (by decide)
  ⟨h.1, h.2.2⟩

/-! ## The boot sequence -/

theorem Main_trace (K : Consts) (bootInfo : Nat) :
    (Main K bootInfo).trace =
      bootInits bootInfo ++
      [Call.Set_Current_Attr (K.ATTRIB K.BLACK (K.GREEN ||| K.BRIGHT)),
       Call.Print "Welcome to GeekOS!\n" [],
       Call.Set_Current_Attr (K.ATTRIB K.BLACK K.GRAY),
       Call.Start_Kernel_Thread Func.project0 0 K.PRIORITY_NORMAL false,
       Call.Exit 0] := rfl

theorem Main_exited (K : Consts) (bootInfo : Nat) : (Main K bootInfo).exited = some 0 := rfl

/-- C5: for every boot descriptor the trace of Main begins with the ten
initializers Init_BSS, Init_Screen, Init_Mem(bootInfo), Init_CRC32, Init_TSS,
Init_Interrupts, Init_Scheduler, Init_Traps, Init_Timer, Init_Keyboard in this
order; these are all the initializer calls of the trace, each occurs exactly
once, and the call of Start_Kernel_Thread comes after all ten. -/
theorem C5_boot_order (K : Consts) (bootInfo : Nat) :
    (Main K bootInfo).trace.take 10 =
      [Call.Init_BSS, Call.Init_Screen, Call.Init_Mem bootInfo, Call.Init_CRC32,
       Call.Init_TSS, Call.Init_Interrupts, Call.Init_Scheduler, Call.Init_Traps,
       Call.Init_Timer, Call.Init_Keyboard] ∧
    (Main K bootInfo).trace.filter Call.isInit = bootInits bootInfo ∧
    (∀ c ∈ bootInits bootInfo, (Main K bootInfo).trace.count c = 1) ∧
    ∃ mid post,
      (Main K bootInfo).trace =
        bootInits bootInfo ++ mid ++
          Call.Start_Kernel_Thread Func.project0 0 K.PRIORITY_NORMAL false :: post ∧
      ∀ c ∈ bootInits bootInfo ++ mid, c.isStart = false := by
  refine ⟨?_, ?_, ?_, ?_⟩
  · rw [Main_trace]
    rfl
  · rw [Main_trace]
    rfl
  · intro c hc
    simp only [bootInits, List.mem_cons, List.mem_singleton, List.not_mem_nil, or_false] at hc
    rcases hc with h | h | h | h | h | h | h | h | h | h <;>
      subst h <;> rw [Main_trace] <;>
      simp only [bootInits, List.cons_append, List.nil_append] <;>
      simp [List.count_cons]
  · refine ⟨[Call.Set_Current_Attr (K.ATTRIB K.BLACK (K.GREEN ||| K.BRIGHT)),
       Call.Print "Welcome to GeekOS!\n" [],
       Call.Set_Current_Attr (K.ATTRIB K.BLACK K.GRAY)], [Call.Exit 0], ?_, ?_⟩
    · rw [Main_trace]
      rfl
    intro c hc
    simp only [bootInits, List.cons_append, List.nil_append, List.mem_cons,
      List.not_mem_nil, or_false] at hc
    rcases hc with h | h | h | h | h | h | h | h | h | h | h | h | h <;>
      subst h <;> rfl

/-- C6: for every boot descriptor Main calls Start_Kernel_Thread exactly once,
with entry point project0, argument 0, priority PRIORITY_NORMAL and detached
false, and the call comes after the Print call of the welcome banner. -/
theorem C6_one_thread (K : Consts) (bootInfo : Nat) :
    (Main K bootInfo).trace.filter Call.isStart =
      [Call.Start_Kernel_Thread Func.project0 0 K.PRIORITY_NORMAL false] ∧
    ∃ pre post,
      (Main K bootInfo).trace =
        pre ++ Call.Start_Kernel_Thread Func.project0 0 K.PRIORITY_NORMAL false :: post ∧
      Call.Print "Welcome to GeekOS!\n" [] ∈ pre ∧
      output pre = "Welcome to GeekOS!\n".toList.map Char.toNat := by
  rw [Main_trace]
  refine ⟨rfl, bootInits bootInfo ++
      [Call.Set_Current_Attr (K.ATTRIB K.BLACK (K.GREEN ||| K.BRIGHT)),
       Call.Print "Welcome to GeekOS!\n" [],
       Call.Set_Current_Attr (K.ATTRIB K.BLACK K.GRAY)],
    [Call.Exit 0], rfl, ?_, rfl⟩
  simp only [bootInits, List.cons_append, List.nil_append, List.mem_cons, true_or, or_true]

/-- C9: for every boot descriptor Main ends its own thread by calling Exit
with status 0.  This is the last call of its trace and the only Exit call; the
ten initializers, the welcome banner and the creation of the echo thread all
come before it, and after it Main performs no further call. -/
theorem C9_main_exits (K : Consts) (bootInfo : Nat) :
    (Main K bootInfo).exited = some 0 ∧
    exits (Main K bootInfo).trace = [Call.Exit 0] ∧
    (∃ pre,
      (Main K bootInfo).trace = pre ++ [Call.Exit 0] ∧
      (∀ c ∈ bootInits bootInfo, c ∈ pre) ∧
      Call.Print "Welcome to GeekOS!\n" [] ∈ pre ∧
      Call.Start_Kernel_Thread Func.project0 0 K.PRIORITY_NORMAL false ∈ pre) ∧
    ∀ c, (Main K bootInfo).call c = Main K bootInfo := by
  rw [Main_trace]
  refine ⟨Main_exited K bootInfo, rfl, ⟨bootInits bootInfo ++
      [Call.Set_Current_Attr (K.ATTRIB K.BLACK (K.GREEN ||| K.BRIGHT)),
       Call.Print "Welcome to GeekOS!\n" [],
       Call.Set_Current_Attr (K.ATTRIB K.BLACK K.GRAY),
       Call.Start_Kernel_Thread Func.project0 0 K.PRIORITY_NORMAL false], rfl, ?_, ?_, ?_⟩, ?_⟩
  · intro c hc
    exact List.mem_append_left _ hc
  · simp only [bootInits, List.cons_append, List.nil_append, List.mem_cons, true_or, or_true]
  · simp only [bootInits, List.cons_append, List.nil_append, List.mem_cons, List.mem_singleton,
      true_or, or_true]
  · intro c
    simp only [Thread.call, Main_exited]

/-! ## The echo loop over a stream of keyboard answers -/

theorem keyReads_append (a b : List Call) : keyReads (a ++ b) = keyReads a ++ keyReads b := by
  simp [keyReads]

theorem prints_append (a b : List Call) : prints (a ++ b) = prints a ++ prints b := by
  simp [prints]

theorem loop_dead (K : Consts) (t : Thread) (reads : List (Option Nat)) (c : Int)
    (ht : t.exited = some c) : project0_loop K t reads = t := by
  cases reads with
  | nil => rfl
  | cons r rest => simp [project0_loop, ht]

theorem loop_cons (K : Consts) (t : Thread) (r : Option Nat) (rest : List (Option Nat))
    (ht : t.exited = none) :
    project0_loop K t (r :: rest) = project0_loop K (project0_iteration K t r) rest := by
  simp [project0_loop, ht]

theorem loop_append (K : Consts) (t : Thread) (a b : List (Option Nat)) :
    project0_loop K t (a ++ b) = project0_loop K (project0_loop K t a) b := by
  induction a generalizing t with
  | nil => rfl
  | cons r rest ih =>
    cases ht : t.exited with
    | some c =>
      rw [List.cons_append, loop_dead K t _ c ht, loop_dead K t _ c ht, loop_dead K t _ c ht]
    | none =>
      rw [List.cons_append, loop_cons K t r _ ht, loop_cons K t r _ ht, ih]

/-- A stretch of keyboard answers without exit chord: the thread keeps
running, every answer is read, and the output grows by the echo of the
significant events, in order. -/
theorem loop_no_chord (K : Consts) (reads : List (Option Nat)) :
    ∀ t : Thread, t.exited = none →
    (∀ k, some k ∈ reads → exitChord K k = false) →
    (project0_loop K t reads).exited = none ∧
    output (project0_loop K t reads).trace =
      output t.trace ++ ((reads.filterMap id).filter (significant K)).map echoChar ∧
    keyReads (project0_loop K t reads).trace =
      keyReads t.trace ++ reads.map Call.Read_Key ∧
    prints (project0_loop K t reads).trace =
      prints t.trace ++ ((reads.filterMap id).filter (significant K)).map
        (fun k => Call.Print "%c" [echoChar k]) := by
  induction reads with
  | nil =>
    intro t ht _
    simp [project0_loop, ht]
  | cons r rest ih =>
    intro t ht h
    rw [loop_cons K t r rest ht]
    have hrest : ∀ k, some k ∈ rest → exitChord K k = false :=
      fun k hk => h k (List.mem_cons_of_mem _ hk)
    cases r with
    | none =>
      rw [iteration_none K t ht]
      obtain ⟨h1, h2, h3, h4⟩ := ih ⟨t.trace ++ [Call.Read_Key none], none⟩ rfl hrest
      refine ⟨h1, ?_, ?_, ?_⟩
      · rw [h2]
        simp [output_append, output, output_read]
      · rw [h3]
        simp [keyReads_append, keyReads]
      · rw [h4]
        simp [prints_append, prints]
    | some k =>
      have hk : exitChord K k = false := h k (List.mem_cons_self _ _)
      rw [iteration_live K t k ht]
      by_cases hs : significant K k = true
      · simp only [hs, hk, if_true, Bool.false_eq_true, if_false]
        obtain ⟨h1, h2, h3, h4⟩ :=
          ih ⟨t.trace ++ [Call.Read_Key (some k), Call.Print "%c" [echoChar k]], none⟩ rfl hrest
        refine ⟨h1, ?_, ?_, ?_⟩
        · rw [h2]
          simp [output_append, output, output_read, output_echo, echoChar_mod, hs]
        · rw [h3]
          simp [keyReads_append, keyReads]
        · rw [h4]
          simp [prints_append, prints, hs]
      · rw [Bool.not_eq_true] at hs
        simp only [hs, Bool.false_eq_true, if_false]
        obtain ⟨h1, h2, h3, h4⟩ := ih ⟨t.trace ++ [Call.Read_Key (some k)], none⟩ rfl hrest
        refine ⟨h1, ?_, ?_, ?_⟩
        · rw [h2]
          simp [output_append, output, output_read, hs]
        · rw [h3]
          simp [keyReads_append, keyReads]
        · rw [h4]
          simp [prints_append, prints, hs]

/-- The calls the loop adds to a trace never include the prompt. -/
theorem loop_extends (K : Consts) (reads : List (Option Nat)) :
    ∀ t : Thread, ∃ ext, (project0_loop K t reads).trace = t.trace ++ ext ∧
      Call.Print "To Exit hit Ctrl + d.\n" [] ∉ ext := by
  induction reads with
  | nil =>
    intro t
    exact ⟨[], by simp [project0_loop], by simp⟩
  | cons r rest ih =>
    intro t
    cases ht : t.exited with
    | some c =>
      rw [loop_dead K t _ c ht]
      exact ⟨[], by simp, by simp⟩
    | none =>
      rw [loop_cons K t r rest ht]
      cases r with
      | none =>
        rw [iteration_none K t ht]
        obtain ⟨ext, h1, h2⟩ := ih ⟨t.trace ++ [Call.Read_Key none], none⟩
        refine ⟨Call.Read_Key none :: ext, ?_, ?_⟩
        · rw [h1]
          simp
        · simp [h2]
      | some k =>
        rw [iteration_live K t k ht]
        by_cases hs : significant K k = true
        · by_cases hc : exitChord K k = true
          · simp only [hs, hc, if_true]
            obtain ⟨ext, h1, h2⟩ := ih ⟨t.trace ++ [Call.Read_Key (some k),
              Call.Print "\n---------BYE!---------\n" [], Call.Exit 1], some 1⟩
            refine ⟨[Call.Read_Key (some k),
              Call.Print "\n---------BYE!---------\n" [], Call.Exit 1] ++ ext, ?_, ?_⟩
            · rw [h1]
              simp
            · simp [h2]
          · rw [Bool.not_eq_true] at hc
            simp only [hs, hc, if_true, Bool.false_eq_true, if_false]
            obtain ⟨ext, h1, h2⟩ := ih ⟨t.trace ++ [Call.Read_Key (some k),
              Call.Print "%c" [echoChar k]], none⟩
            refine ⟨[Call.Read_Key (some k), Call.Print "%c" [echoChar k]] ++ ext, ?_, ?_⟩
            · rw [h1]
              simp
            · simp [h2]
        · rw [Bool.not_eq_true] at hs
          simp only [hs, Bool.false_eq_true, if_false]
          obtain ⟨ext, h1, h2⟩ := ih ⟨t.trace ++ [Call.Read_Key (some k)], none⟩
          refine ⟨Call.Read_Key (some k) :: ext, ?_, ?_⟩
          · rw [h1]
            simp
          · simp [h2]

/-- C7: for every finite stream of keyboard answers in which each delivered
event has the release and special flags clear and is not the exit chord, the
echo loop prints exactly one character per event, in the order received (the
echo of the low byte, carriage return as line feed), reads every answer, and
does not exit.  Answers without an event (Read_Key returned false) print
nothing. -/
theorem C7_echo_stream (K : Consts) (t : Thread) (reads : List (Option Nat))
    (ht : t.exited = none)
    (h : ∀ k, some k ∈ reads →
      (k &&& K.KEY_RELEASE_FLAG) = 0 ∧ (k &&& K.KEY_SPECIAL_FLAG) = 0 ∧
      ¬ ((k &&& K.KEY_CTRL_FLAG) = K.KEY_CTRL_FLAG ∧ k % 256 = 0x64)) :
    prints (project0_loop K t reads).trace =
      prints t.trace ++ (reads.filterMap id).map (fun k => Call.Print "%c" [echoChar k]) ∧
    output (project0_loop K t reads).trace =
      output t.trace ++ (reads.filterMap id).map echoChar ∧
    (output (project0_loop K t reads).trace).length =
      (output t.trace).length + (reads.filterMap id).length ∧
    keyReads (project0_loop K t reads).trace =
      keyReads t.trace ++ reads.map Call.Read_Key ∧
    (project0_loop K t reads).exited = none := by
  have hsig : ∀ k ∈ reads.filterMap id, significant K k = true := by
    intro k hk
    have hk2 : some k ∈ reads := by simpa using hk
    obtain ⟨h1, h2, _⟩ := h k hk2
    simp [significant, h1, h2]
  have hno : ∀ k, some k ∈ reads → exitChord K k = false := by
    intro k hk
    obtain ⟨_, _, h3⟩ := h k hk
    simp only [exitChord, Bool.and_eq_false_imp, Bool.and_eq_true, beq_iff_eq,
      beq_eq_false_iff_ne, and_imp]
    intro _ h4 h5
    exact h3 ⟨h4, h5⟩
  obtain ⟨h1, h2, h3, h4⟩ := loop_no_chord K reads t ht hno
  rw [List.filter_eq_self.mpr hsig] at h2 h4
  refine ⟨h4, h2, ?_, h3, h1⟩
  rw [h2]
  simp

/-- C7, at the stream h, e, l, l, o: the loop prints hello and does not exit. -/
theorem C7_echo_stream_witness :
    output (project0_loop stdConsts Thread.start
      [some 0x68, some 0x65, some 0x6C, some 0x6C, some 0x6F]).trace
      = [0x68, 0x65, 0x6C, 0x6C, 0x6F] ∧
    (project0_loop stdConsts Thread.start
      [some 0x68, some 0x65, some 0x6C, some 0x6C, some 0x6F]).exited = none :=
  have h := C7_echo_stream stdConsts Thread.start
    [some 0x68, some 0x65, some 0x6C, some 0x6C, some 0x6F] rfl
    (by
      intro k hk
      simp only [List.mem_cons, Option.some.injEq, List.not_mem_nil, or_false] at hk
      rcases hk with rfl | rfl | rfl | rfl | rfl <;> decide)
  ⟨h.2.1, h.2.2.2.2⟩

/-- C8: the exit chord is the terminal transition of the echo loop.  For a
stream of keyboard answers whose first exit chord (release and special clear,
control set, low byte d) is the event c, the loop prints the echo of the
significant events before c, in order, then the farewell text, then calls
Exit with status 1; release and special events print nothing, and no answer
after c is read: the result does not depend on what follows c. -/
theorem C8_chord_terminal (K : Consts) (t : Thread)
    (pre post : List (Option Nat)) (c : Nat)
    (ht : t.exited = none)
    (hc : (c &&& K.KEY_RELEASE_FLAG) = 0 ∧ (c &&& K.KEY_SPECIAL_FLAG) = 0 ∧
      (c &&& K.KEY_CTRL_FLAG) = K.KEY_CTRL_FLAG ∧ c % 256 = 0x64)
    (hpre : ∀ k, some k ∈ pre →
      ¬ ((k &&& K.KEY_RELEASE_FLAG) = 0 ∧ (k &&& K.KEY_SPECIAL_FLAG) = 0 ∧
        (k &&& K.KEY_CTRL_FLAG) = K.KEY_CTRL_FLAG ∧ k % 256 = 0x64)) :
    prints (project0_loop K t (pre ++ some c :: post)).trace =
      prints t.trace ++
        ((pre.filterMap id).filter (significant K)).map (fun k => Call.Print "%c" [echoChar k]) ++
        [Call.Print "\n---------BYE!---------\n" []] ∧
    output (project0_loop K t (pre ++ some c :: post)).trace =
      output t.trace ++ ((pre.filterMap id).filter (significant K)).map echoChar ++ farewell ∧
    (∃ mid, (project0_loop K t (pre ++ some c :: post)).trace =
      t.trace ++ mid ++ [Call.Print "\n---------BYE!---------\n" [], Call.Exit 1]) ∧
    (project0_loop K t (pre ++ some c :: post)).exited = some 1 ∧
    keyReads (project0_loop K t (pre ++ some c :: post)).trace =
      keyReads t.trace ++ (pre ++ [some c]).map Call.Read_Key ∧
    project0_loop K t (pre ++ some c :: post) = project0_loop K t (pre ++ [some c]) := by
  obtain ⟨hc1, hc2, hc3, hc4⟩ := hc
  have hno : ∀ k, some k ∈ pre → exitChord K k = false := by
    intro k hk
    have h3 := hpre k hk
    simp only [exitChord, significant, Bool.and_eq_false_imp, Bool.and_eq_true, beq_iff_eq,
      beq_eq_false_iff_ne, and_imp]
    intro h4 h5 h6 h7
    exact h3 ⟨h5, h4, h6, h7⟩
  obtain ⟨h1, h2, h3, h5⟩ := loop_no_chord K pre t ht hno
  obtain ⟨ext, h4, _⟩ := loop_extends K pre t
  have hs : significant K c = true := by simp [significant, hc1, hc2]
  have hx : exitChord K c = true := by simp [exitChord, hs, hc3, hc4]
  have hit := iteration_live K (project0_loop K t pre) c h1
  simp only [hs, hx, if_true] at hit
  have hstep : ∀ rest, project0_loop K t (pre ++ some c :: rest) =
      ⟨(project0_loop K t pre).trace ++ [Call.Read_Key (some c),
        Call.Print "\n---------BYE!---------\n" [], Call.Exit 1], some 1⟩ := by
    intro rest
    rw [loop_append, loop_cons K _ _ _ h1, hit]
    exact loop_dead K _ rest 1 rfl
  rw [hstep post, hstep []]
  refine ⟨?_, ?_, ⟨ext ++ [Call.Read_Key (some c)], ?_⟩, rfl, ?_, rfl⟩
  · rw [prints_append, h5]
    simp [prints]
  · rw [output_append, h2]
    simp [output, output_read, output_bye, output_exit]
  · simp [h4]
  · rw [keyReads_append, h3]
    simp [keyReads]

/-- C8, at the stream h, key-up of h, Ctrl+d, followed by one more key: the
output is h and the farewell text, the exit status is 1, and the key after
the chord is not read. -/
theorem C8_chord_terminal_witness :
    output (project0_loop stdConsts Thread.start
      [some 0x68, some 0x8068, some 0x4064, some 0x78]).trace
      = 0x68 :: farewell ∧
    (project0_loop stdConsts Thread.start
      [some 0x68, some 0x8068, some 0x4064, some 0x78]).exited = some 1 ∧
    keyReads (project0_loop stdConsts Thread.start
      [some 0x68, some 0x8068, some 0x4064, some 0x78]).trace
      = [Call.Read_Key (some 0x68), Call.Read_Key (some 0x8068), Call.Read_Key (some 0x4064)] :=
  have h := C8_chord_terminal stdConsts Thread.start [some 0x68, some 0x8068] [some 0x78]
    0x4064 rfl (by decide)
    (by
      intro k hk
      simp only [List.mem_cons, Option.some.injEq, List.not_mem_nil, or_false] at hk
      rcases hk with rfl | rfl <;> decide)
  ⟨h.2.1, h.2.2.2.1, h.2.2.2.2.1⟩

/-- C10: on entry, before any Read_Key call, project0 prints the prompt
"To Exit hit Ctrl + d." followed by a line feed, and the loop never prints it
again: for every stream of keyboard answers the first call of the thread is
that Print call, it does not occur among the later calls, and the complete
output of the thread is the prompt followed by the output of the later calls.
For the stream h, e, l, l, o the complete output is the prompt followed by
hello, not hello alone. -/
theorem C10_prompt_once (K : Consts) (reads : List (Option Nat)) :
    (∃ rest,
      (project0 K reads).trace = Call.Print "To Exit hit Ctrl + d.\n" [] :: rest ∧
      Call.Print "To Exit hit Ctrl + d.\n" [] ∉ rest ∧
      output (project0 K reads).trace = prompt ++ output rest) ∧
    (project0 K reads).trace.count (Call.Print "To Exit hit Ctrl + d.\n" []) = 1 ∧
    output (project0 stdConsts
      [some 0x68, some 0x65, some 0x6C, some 0x6C, some 0x6F]).trace
      = prompt ++ [0x68, 0x65, 0x6C, 0x6C, 0x6F] ∧
    output (project0 stdConsts
      [some 0x68, some 0x65, some 0x6C, some 0x6C, some 0x6F]).trace
      ≠ [0x68, 0x65, 0x6C, 0x6C, 0x6F] := by
  obtain ⟨ext, h1, h2⟩ :=
    loop_extends K reads (Thread.start.call (Call.Print "To Exit hit Ctrl + d.\n" []))
  have h3 : (project0 K reads).trace = Call.Print "To Exit hit Ctrl + d.\n" [] :: ext := h1
  refine ⟨⟨ext, h3, h2, ?_⟩, ?_, ?_, ?_⟩
  · rw [h3]
    exact output_append [Call.Print "To Exit hit Ctrl + d.\n" []] ext
  · rw [h3, List.count_cons_self, List.count_eq_zero_of_not_mem h2]
  · decide
  · decide

end GeekOS
